import Mathlib

/-!
# CloudflareAccessGroupReconciler.Reconcile

A shallow embedding of `controllers/cloudflareaccessgroup_controller.go`.

One call of `Reconcile` is one reconciliation pass.  The pass talks to two
collaborators, the cluster store (`r.Client.Get`, `r.Status().Update`) and the
Cloudflare API (`cfapi.New`, `AccessGroups`, `AccessGroup`, `CreateAccessGroup`,
`UpdateAccessGroup`).  Both are stateful, so every collaborator operation is a
function from a state to a result and a successor state, and the pass threads
the state through in source order.  Each operation the pass performs is
recorded, with its arguments and with the error it returned, in a trace.

Go values are embedded as follows.
* An `error` interface value is an `Option GoError`, `none` being `nil`.
* A `(value, error)` result is an `Except GoError value`.
* A pointer that the source dereferences is an `Option`; dereferencing `none`
  is the run-time fault `Outcome.fault` (a nil pointer dereference).
* The returned `ctrl.Result` is always the zero value `ctrl.Result{}`, so the
  outcome of a pass that returns is the returned `error`.
-/

namespace CfZeroTrust

/-! ## Data model -/

/-- A `time.Time` value. Only identity of timestamps matters to the pass. -/
abbrev Time := Nat

/-- A Go `error` that is not `nil`. `notFound` is an error for which
`k8serrors.IsNotFound` answers true, `wrap` is the result of `errors.Wrap`
on a non-nil error. -/
inductive GoError where
  | notFound (msg : String)
  | other (msg : String)
  | wrap (cause : GoError) (msg : String)
  deriving DecidableEq

/-- Embeds `k8serrors.IsNotFound`. -/
def IsNotFound : GoError → Bool
  | .notFound _ => true
  | .other _ => false
  | .wrap cause _ => IsNotFound cause

/-- Embeds `errors.Wrap` of `github.com/pkg/errors`: wrapping `nil` gives
`nil`, wrapping an error gives an error annotated with the message. -/
def Wrap (err : Option GoError) (message : String) : Option GoError :=
  match err with
  | none => none
  | some e => some (GoError.wrap e message)

/-- Modelled from the spec: the `cloudflare.AccessGroup` type declaration is
not part of the source file. The fields are those of the spec's
ExternalResource (`id`, `name`, `members`, `createdAt`, `updatedAt`);
`CreatedAt` and `UpdatedAt` are pointers, as the dereferences
`*g.CreatedAt` and `*g.UpdatedAt` in `Reconcile` show. -/
structure AccessGroup where
  ID : String
  CreatedAt : Option Time
  UpdatedAt : Option Time
  Name : String
  Members : List String
  deriving DecidableEq

/-- Modelled from the spec: the status part of `v1alpha1.CloudflareAccessGroup`
(the spec's ReconciliationStatus). `Reconcile` reads and writes exactly these
three fields. -/
structure CloudflareAccessGroupStatus where
  AccessGroupID : String
  CreatedAt : Time
  UpdatedAt : Time
  deriving DecidableEq

/-- Modelled from the spec: the user-declared part of
`v1alpha1.CloudflareAccessGroup` (the spec's DesiredResource). -/
structure CloudflareAccessGroupSpec where
  Name : String
  Members : List String
  AccountID : String
  deriving DecidableEq

/-- Modelled from the spec: the `v1alpha1.CloudflareAccessGroup` object, the
desired resource together with its persisted status. -/
structure CloudflareAccessGroup where
  Name : String
  Spec : CloudflareAccessGroupSpec
  Status : CloudflareAccessGroupStatus
  deriving DecidableEq

/-! ## Collaborators and trace -/

/-- A collaborator operation performed by a pass, with its arguments. -/
inductive Call where
  | get
  | new
  | accessGroups
  | accessGroup (id : String)
  | statusUpdate (ag : CloudflareAccessGroup)
  | createAccessGroup (g : AccessGroup)
  | updateAccessGroup (g : AccessGroup)
  deriving DecidableEq

/-- One entry of the trace: the operation and the error it returned. -/
structure Event where
  call : Call
  err : Option GoError
  deriving DecidableEq

/-- How a pass ends: `Reconcile` returns `(ctrl.Result{}, err)`, or the
goroutine faults on a nil pointer dereference. -/
inductive Outcome where
  | returned (err : Option GoError)
  | fault
  deriving DecidableEq

/-- The outcome `return ctrl.Result{}, nil`. -/
abbrev Outcome.success : Outcome := Outcome.returned none

/-- Everything `Reconcile` calls that is not defined in the source file.
The stateful operations take and return the state of the world `σ`;
`isValid ag` is `config.ParseCloudflareConfig(ag).IsValid()`, and
`cloudflareName`, `toCloudflare`, `emailEqual` are `ag.CloudflareName()`,
`ag.ToCloudflare()` and `cfapi.AcessGroupEmailEqual`. -/
structure Collab (σ : Type) where
  get : σ → Except GoError CloudflareAccessGroup × σ
  isValid : CloudflareAccessGroup → Bool × Option GoError
  new : σ → Option GoError × σ
  accessGroups : σ → Except GoError (List AccessGroup) × σ
  accessGroup : String → σ → Except GoError AccessGroup × σ
  statusUpdate : CloudflareAccessGroup → σ → Option GoError × σ
  createAccessGroup : AccessGroup → σ → Except GoError AccessGroup × σ
  updateAccessGroup : AccessGroup → σ → Except GoError AccessGroup × σ
  cloudflareName : CloudflareAccessGroup → String
  toCloudflare : CloudflareAccessGroup → AccessGroup
  emailEqual : AccessGroup → AccessGroup → Bool

/-- What a pass leaves behind: its outcome, the trace of collaborator
operations in the order performed, and the final state of the world. -/
structure PassResult (σ : Type) where
  outcome : Outcome
  calls : List Event
  state : σ

/-! ## The pass -/

/-- The loop of lines 96-117, up to the match: the first group in listing
order whose `Name` equals `name`, if there is one. The loop body acts only on
that group and then executes `break`. -/
def scanByName (name : String) : List AccessGroup → Option AccessGroup
  | [] => none
  | g :: rest => if g.Name = name then some g else scanByName name rest

/-- Lines 126-142 of `Reconcile`. When `existingCfAG` is `nil` the creation
block runs; the value returned by `CreateAccessGroup` is discarded (`_`) and
`existingCfAG` is not assigned, so the dereference `*existingCfAG` of line 133
that follows a successful creation is a dereference of `nil`. Otherwise the
comparison and, when it answers false, the update are performed. -/
def reconcileTail {σ : Type} (c : Collab σ) (existingCfAG : Option AccessGroup)
    (newCfAG : AccessGroup) (trace : List Event) (s : σ) : PassResult σ :=
  match existingCfAG with
  | none =>
    -- line 127: `_, err = api.CreateAccessGroup(ctx, newCfAG)`
    match c.createAccessGroup newCfAG s with
    | (.error err, s1) =>
      -- line 129
      ⟨.returned (Wrap (some err) "unable to create access group"),
        trace ++ [⟨.createAccessGroup newCfAG, some err⟩], s1⟩
    | (.ok _, s1) =>
      -- line 133: `*existingCfAG` with `existingCfAG == nil`
      ⟨.fault, trace ++ [⟨.createAccessGroup newCfAG, none⟩], s1⟩
  | some cur =>
    -- line 133: `!cfapi.AcessGroupEmailEqual(*existingCfAG, newCfAG)`
    if !c.emailEqual cur newCfAG then
      -- line 136: `api.UpdateAccessGroup(ctx, newCfAG)`
      match c.updateAccessGroup newCfAG s with
      | (.error err, s1) =>
        -- line 138
        ⟨.returned (Wrap (some err) "unable to update access groups"),
          trace ++ [⟨.updateAccessGroup newCfAG, some err⟩], s1⟩
      | (.ok _, s1) =>
        -- line 142
        ⟨.returned none, trace ++ [⟨.updateAccessGroup newCfAG, none⟩], s1⟩
    else
      -- line 142
      ⟨.returned none, trace, s⟩

/-- Embeds `CloudflareAccessGroupReconciler.Reconcile`, lines 56-143. Logging
is left out. -/
def Reconcile {σ : Type} (c : Collab σ) (s0 : σ) : PassResult σ :=
  -- line 64: `r.Client.Get(ctx, req.NamespacedName, ag)`
  match c.get s0 with
  | (.error err, s1) =>
    if IsNotFound err then
      -- line 67
      ⟨.returned none, [⟨.get, some err⟩], s1⟩
    else
      -- line 71
      ⟨.returned (Wrap (some err) "Failed to get CloudflareAccessGroup"),
        [⟨.get, some err⟩], s1⟩
  | (.ok ag, s1) =>
    -- lines 74-75: `validConfig, err := cfConfig.IsValid()`
    let validConfig := (c.isValid ag).1
    let verr := (c.isValid ag).2
    if !validConfig then
      -- line 77: `errors.Wrap(err, "invalid config")`, whatever `err` is
      ⟨.returned (Wrap verr "invalid config"), [⟨.get, none⟩], s1⟩
    else
      -- line 80: `cfapi.New(...)`
      match c.new s1 with
      | (some err, s2) =>
        -- line 83
        ⟨.returned (Wrap (some err) "unable to initialize cloudflare object"),
          [⟨.get, none⟩, ⟨.new, some err⟩], s2⟩
      | (none, s2) =>
        -- line 88: `api.AccessGroups(ctx)`
        match c.accessGroups s2 with
        | (.error err, s3) =>
          -- line 90
          ⟨.returned (Wrap (some err) "unable to get access groups"),
            [⟨.get, none⟩, ⟨.new, none⟩, ⟨.accessGroups, some err⟩], s3⟩
        | (.ok cfAccessGroups, s3) =>
          let trace : List Event := [⟨.get, none⟩, ⟨.new, none⟩, ⟨.accessGroups, none⟩]
          -- line 93
          let newCfAG := c.toCloudflare ag
          -- line 95
          if ag.Status.AccessGroupID = "" then
            -- lines 96-97: the first `g` with `g.Name == ag.CloudflareName()`
            match scanByName (c.cloudflareName ag) cfAccessGroups with
            | some g =>
              -- line 103: `*g.CreatedAt`
              match g.CreatedAt with
              | none => ⟨.fault, trace, s3⟩
              | some createdAt =>
                -- line 104: `*g.UpdatedAt`
                match g.UpdatedAt with
                | none => ⟨.fault, trace, s3⟩
                | some updatedAt =>
                  -- lines 102-104: the status fields of `ag` are assigned
                  let ag1 : CloudflareAccessGroup :=
                    { ag with Status := ⟨g.ID, createdAt, updatedAt⟩ }
                  -- line 107
                  let newCfAG1 := c.toCloudflare ag1
                  -- lines 109-110: `existingCfAG = &g`, `r.Status().Update(ctx, ag)`
                  match c.statusUpdate ag1 s3 with
                  | (some err, s4) =>
                    -- line 112
                    ⟨.returned (Wrap (some err) "unable to update access group"),
                      trace ++ [⟨.statusUpdate ag1, some err⟩], s4⟩
                  | (none, s4) =>
                    -- line 115: `break`
                    reconcileTail c (some g) newCfAG1
                      (trace ++ [⟨.statusUpdate ag1, none⟩]) s4
            | none =>
              -- the loop ends without a match, `existingCfAG` stays `nil`
              reconcileTail c none newCfAG trace s3
          else
            -- lines 119-120: `api.AccessGroup(ctx, ag.Status.AccessGroupID)`
            match c.accessGroup ag.Status.AccessGroupID s3 with
            | (.error err, s4) =>
              -- line 122
              ⟨.returned (Wrap (some err) "unable to get access groups"),
                trace ++ [⟨.accessGroup ag.Status.AccessGroupID, some err⟩], s4⟩
            | (.ok cfAG, s4) =>
              reconcileTail c (some cfAG) newCfAG
                (trace ++ [⟨.accessGroup ag.Status.AccessGroupID, none⟩]) s4

/-! ## Reading a trace -/

/-- The arguments of the `CreateAccessGroup` calls of a trace, in order. -/
def creates : List Event → List AccessGroup
  | [] => []
  | ⟨.createAccessGroup g, _⟩ :: rest => g :: creates rest
  | _ :: rest => creates rest

/-- The arguments of the `UpdateAccessGroup` calls of a trace, in order. -/
def updates : List Event → List AccessGroup
  | [] => []
  | ⟨.updateAccessGroup g, _⟩ :: rest => g :: updates rest
  | _ :: rest => updates rest

/-- The arguments of the `Status().Update` calls of a trace, in order. -/
def statusWrites : List Event → List CloudflareAccessGroup
  | [] => []
  | ⟨.statusUpdate ag, _⟩ :: rest => ag :: statusWrites rest
  | _ :: rest => statusWrites rest

/-- The identifiers of the get-by-ID `AccessGroup` calls of a trace. -/
def lookups : List Event → List String
  | [] => []
  | ⟨.accessGroup id, _⟩ :: rest => id :: lookups rest
  | _ :: rest => lookups rest

/-! ## An explicit world: cluster store and external account -/

/-- Modelled from the spec: the member sets of two resources are equal as
unordered sets, duplicates collapsed and order ignored (section 4.3,
equality check). -/
def sameMembers (xs ys : List String) : Bool :=
  xs.all (fun x => decide (x ∈ ys)) && ys.all (fun y => decide (y ∈ xs))

/-- Modelled from the spec: `cfapi.AcessGroupEmailEqual` is not part of the
source file. Equality is defined only over the member-set field; name,
identifier and timestamps are not compared. -/
def AcessGroupEmailEqual (first second : AccessGroup) : Bool :=
  sameMembers first.Members second.Members

/-- Modelled from the spec: `CloudflareName` is not part of the source file.
The spec treats the fully-qualified display name as a comparison key derived
from the desired resource; here it is the declared name. -/
def CloudflareName (ag : CloudflareAccessGroup) : String :=
  ag.Spec.Name

/-- Modelled from the spec: `ToCloudflare` is not part of the source file.
The translated form carries the display name and the members of the desired
resource, merged with the external identifier and the timestamps recorded in
the status. -/
def ToCloudflare (ag : CloudflareAccessGroup) : AccessGroup :=
  { ID := ag.Status.AccessGroupID
    CreatedAt := some ag.Status.CreatedAt
    UpdatedAt := some ag.Status.UpdatedAt
    Name := CloudflareName ag
    Members := ag.Spec.Members }

/-- The state both collaborators keep: the stored object (desired resource
and status), the groups of the external account in listing order, and the
clock of the external service. -/
structure World where
  stored : CloudflareAccessGroup
  groups : List AccessGroup
  clock : Time
  deriving DecidableEq

/-- Modelled from the spec: get-by-ID over the external account, failing when
no group has the identifier. -/
def World.lookup (w : World) (id : String) : Option AccessGroup :=
  w.groups.find? (fun g => decide (g.ID = id))

/-- Modelled from the spec: `persistStatus`, the write of the status
subresource of the stored object. -/
def World.writeStatus (w : World) (ag : CloudflareAccessGroup) : World :=
  { w with stored := { w.stored with Status := ag.Status } }

/-- Modelled from the spec: `create` appends a group to the account. The
service assigns the identifier (`mint`, a function of the account's groups)
and both timestamps. -/
def World.create (mint : List AccessGroup → String) (w : World) (g : AccessGroup) :
    AccessGroup × World :=
  let made : AccessGroup :=
    { g with ID := mint w.groups, CreatedAt := some w.clock, UpdatedAt := some w.clock }
  (made, { w with groups := w.groups ++ [made], clock := w.clock + 1 })

/-- Modelled from the spec: what `update` does to one group of the account.
The group with the given identifier gets the given members, any other group
is left as it is. -/
def replaceMembers (id : String) (members : List String) (x : AccessGroup) : AccessGroup :=
  if x.ID = id then { x with Members := members } else x

/-- Modelled from the spec: `update` replaces the members of the group with
the given identifier. -/
def World.update (w : World) (g : AccessGroup) : World :=
  { w with groups := w.groups.map (replaceMembers g.ID g.Members) }

/-- Modelled from the spec: the collaborators over the explicit world, every
call succeeding whenever its target exists. Loading returns the stored
object, the configuration is valid, the client is constructed, the listing
returns the groups in order; get-by-ID and update fail only when no group has
the identifier. -/
def worldCollab (mint : List AccessGroup → String) : Collab World where
  get := fun w => (.ok w.stored, w)
  isValid := fun _ => (true, none)
  new := fun w => (none, w)
  accessGroups := fun w => (.ok w.groups, w)
  accessGroup := fun id w =>
    match w.lookup id with
    | some g => (.ok g, w)
    | none => (.error (.other "access group not found"), w)
  statusUpdate := fun ag w => (none, w.writeStatus ag)
  createAccessGroup := fun g w => (.ok (w.create mint g).1, (w.create mint g).2)
  updateAccessGroup := fun g w =>
    match w.lookup g.ID with
    | some _ => (.ok g, w.update g)
    | none => (.error (.other "access group not found"), w)
  cloudflareName := CloudflareName
  toCloudflare := ToCloudflare
  emailEqual := AcessGroupEmailEqual

/-- The external group that corresponds to the stored desired resource: the
group with the recorded identifier once one is recorded, otherwise the first
group carrying the display name. -/
def World.corresponding (w : World) : Option AccessGroup :=
  if w.stored.Status.AccessGroupID = "" then
    scanByName (CloudflareName w.stored) w.groups
  else
    w.lookup w.stored.Status.AccessGroupID


/-! ## Abbreviations used in the statements -/

/-- The trace of a pass that has loaded, validated, connected and listed. -/
def listed : List Event :=
  [⟨.get, none⟩, ⟨.new, none⟩, ⟨.accessGroups, none⟩]

/-- The stored object with the identity of the external group `g` recorded,
as lines 102-104 assign it. -/
def adopted (ag : CloudflareAccessGroup) (g : AccessGroup) (t u : Time) :
    CloudflareAccessGroup :=
  { ag with Status := ⟨g.ID, t, u⟩ }

/-- The collaborators `c`, except that the listing succeeds with `l`. -/
def Collab.withListing {σ : Type} (c : Collab σ) (l : List AccessGroup) : Collab σ :=
  { c with accessGroups := fun s => (.ok l, (c.accessGroups s).2) }

/-- The collaborators `c`, except that `CloudflareName()` is `f`. -/
def Collab.withName {σ : Type} (c : Collab σ) (f : CloudflareAccessGroup → String) :
    Collab σ :=
  { c with cloudflareName := f }


/-! ## Concrete worlds -/

/-- The desired resource `eng` with members `a@x.com`, `b@x.com` and no
recorded identity. -/
def engDesired : CloudflareAccessGroup :=
  ⟨"eng", ⟨"eng", ["a@x.com", "b@x.com"], "acct"⟩, ⟨"", 0, 0⟩⟩

/-- The desired resource `eng` with the single member `a@x.com` and the
recorded identity `42`. -/
def engRecorded : CloudflareAccessGroup :=
  ⟨"eng", ⟨"eng", ["a@x.com"], "acct"⟩, ⟨"42", 2, 3⟩⟩

/-- An unrelated external group. -/
def opsGroup : AccessGroup := ⟨"g0", some 1, some 1, "ops", ["z@x.com"]⟩

/-- The external group `42`, named `eng`, with members `a@x.com`, `b@x.com`. -/
def group42 : AccessGroup := ⟨"42", some 2, some 3, "eng", ["a@x.com", "b@x.com"]⟩

/-- The external group `42`, named `eng`, with the single member `c@x.com`. -/
def staleGroup : AccessGroup := ⟨"42", some 2, some 3, "eng", ["c@x.com"]⟩

/-- The external service hands out the identifier `g1`. -/
def mintG1 : List AccessGroup → String := fun _ => "g1"

/-- No recorded identity, empty external account. -/
def emptyAccount : World := ⟨engDesired, [], 7⟩

/-- No recorded identity, an external account without a group named `eng`. -/
def opsAccount : World := ⟨engDesired, [opsGroup], 7⟩

/-- No recorded identity, an external account in which the second group is
named `eng` and has other members. -/
def namedAccount : World := ⟨engDesired, [opsGroup, staleGroup], 7⟩

/-- The external group `43`, named `eng`, whose `CreatedAt` pointer is `nil`. -/
def unstampedGroup : AccessGroup := ⟨"43", none, some 3, "eng", ["c@x.com"]⟩

/-- No recorded identity, an external account in which the first group named
`eng` has no `CreatedAt`. -/
def unstampedAccount : World := ⟨engDesired, [opsGroup, unstampedGroup, staleGroup], 7⟩

/-- Recorded identity `42`, external group `42` with one member too many. -/
def recordedAccount : World := ⟨engRecorded, [group42], 7⟩

/-- Recorded identity `42`, external group `42` no longer in the account. -/
def vanishedAccount : World := ⟨engRecorded, [opsGroup], 7⟩

/-- The collaborators over the explicit world, with a configuration validator
that answers not valid and gives no error. -/
def silentInvalidCollab : Collab World :=
  { worldCollab mintG1 with isValid := fun _ => (false, none) }

/-! ## Lemmas on the scan and on traces -/

theorem scanByName_first (name : String) (pre post : List AccessGroup) (g : AccessGroup)
    (hname : g.Name = name) (hfirst : ∀ x ∈ pre, x.Name ≠ name) :
    scanByName name (pre ++ g :: post) = some g := by
  induction pre with
  | nil => simp [scanByName, hname]
  | cons x xs ih =>
    have hx : x.Name ≠ name := hfirst x (by simp)
    have hxs : ∀ y ∈ xs, y.Name ≠ name := fun y hy => hfirst y (by simp [hy])
    simp [scanByName, hx, ih hxs]

theorem scanByName_absent (name : String) (l : List AccessGroup)
    (hnone : ∀ x ∈ l, x.Name ≠ name) : scanByName name l = none := by
  induction l with
  | nil => simp [scanByName]
  | cons x xs ih =>
    have hx : x.Name ≠ name := hnone x (by simp)
    have hxs : ∀ y ∈ xs, y.Name ≠ name := fun y hy => hnone y (by simp [hy])
    simp [scanByName, hx, ih hxs]

theorem reconcile_create_path {σ : Type} (c : Collab σ) (s0 s1 s2 s3 : σ)
    (ag : CloudflareAccessGroup) (l : List AccessGroup)
    (hget : c.get s0 = (.ok ag, s1)) (hvalid : (c.isValid ag).1 = true)
    (hnew : c.new s1 = (none, s2)) (hlist : c.accessGroups s2 = (.ok l, s3))
    (hid : ag.Status.AccessGroupID = "")
    (hscan : scanByName (c.cloudflareName ag) l = none) :
    Reconcile c s0 = reconcileTail c none (c.toCloudflare ag) listed s3 := by
  simp [Reconcile, hget, hvalid, hnew, hlist, hid, hscan, listed]

theorem reconcile_adopt_fault {σ : Type} (c : Collab σ) (s0 s1 s2 s3 : σ)
    (ag : CloudflareAccessGroup) (l : List AccessGroup) (g : AccessGroup)
    (hget : c.get s0 = (.ok ag, s1)) (hvalid : (c.isValid ag).1 = true)
    (hnew : c.new s1 = (none, s2)) (hlist : c.accessGroups s2 = (.ok l, s3))
    (hid : ag.Status.AccessGroupID = "")
    (hscan : scanByName (c.cloudflareName ag) l = some g)
    (hnil : g.CreatedAt = none ∨ g.UpdatedAt = none) :
    Reconcile c s0 = ⟨.fault, listed, s3⟩ := by
  simp only [Reconcile, hget, hvalid, hnew, hlist, hid, hscan, listed]
  cases hc : g.CreatedAt <;> cases hu : g.UpdatedAt <;> simp_all

theorem reconcile_adopt_write_failed {σ : Type} (c : Collab σ) (s0 s1 s2 s3 s4 : σ) (ag : CloudflareAccessGroup)
    (l : List AccessGroup)
    (g : AccessGroup) (t u : Time) (err : GoError)
    (hget : c.get s0 = (.ok ag, s1)) (hvalid : (c.isValid ag).1 = true)
    (hnew : c.new s1 = (none, s2)) (hlist : c.accessGroups s2 = (.ok l, s3))
    (hid : ag.Status.AccessGroupID = "")
    (hscan : scanByName (c.cloudflareName ag) l = some g)
    (hc : g.CreatedAt = some t) (hu : g.UpdatedAt = some u)
    (hwrite : c.statusUpdate (adopted ag g t u) s3 = (some err, s4)) :
    Reconcile c s0 =
      ⟨.returned (some (.wrap err "unable to update access group")),
        listed ++ [⟨.statusUpdate (adopted ag g t u), some err⟩], s4⟩ := by
  simp only [adopted] at hwrite
  simp [Reconcile, hget, hvalid, hnew, hlist, hid, hscan, hc, hu, hwrite, listed, adopted, Wrap]

theorem reconcile_adopt_path {σ : Type} (c : Collab σ) (s0 s1 s2 s3 s4 : σ) (ag : CloudflareAccessGroup)
    (l : List AccessGroup)
    (g : AccessGroup) (t u : Time)
    (hget : c.get s0 = (.ok ag, s1)) (hvalid : (c.isValid ag).1 = true)
    (hnew : c.new s1 = (none, s2)) (hlist : c.accessGroups s2 = (.ok l, s3))
    (hid : ag.Status.AccessGroupID = "")
    (hscan : scanByName (c.cloudflareName ag) l = some g)
    (hc : g.CreatedAt = some t) (hu : g.UpdatedAt = some u)
    (hwrite : c.statusUpdate (adopted ag g t u) s3 = (none, s4)) :
    Reconcile c s0 =
      reconcileTail c (some g) (c.toCloudflare (adopted ag g t u))
        (listed ++ [⟨.statusUpdate (adopted ag g t u), none⟩]) s4 := by
  simp only [adopted] at hwrite
  simp [Reconcile, hget, hvalid, hnew, hlist, hid, hscan, hc, hu, hwrite, listed, adopted]

theorem reconcile_lookup_failed {σ : Type} (c : Collab σ) (s0 s1 s2 s3 s4 : σ) (ag : CloudflareAccessGroup)
    (l : List AccessGroup)
    (err : GoError)
    (hget : c.get s0 = (.ok ag, s1)) (hvalid : (c.isValid ag).1 = true)
    (hnew : c.new s1 = (none, s2)) (hlist : c.accessGroups s2 = (.ok l, s3))
    (hid : ag.Status.AccessGroupID ≠ "")
    (hlookup : c.accessGroup ag.Status.AccessGroupID s3 = (.error err, s4)) :
    Reconcile c s0 =
      ⟨.returned (some (.wrap err "unable to get access groups")),
        listed ++ [⟨.accessGroup ag.Status.AccessGroupID, some err⟩], s4⟩ := by
  simp [Reconcile, hget, hvalid, hnew, hlist, hid, hlookup, listed, Wrap]

theorem reconcile_lookup_path {σ : Type} (c : Collab σ) (s0 s1 s2 s3 s4 : σ) (ag : CloudflareAccessGroup)
    (l : List AccessGroup)
    (cur : AccessGroup)
    (hget : c.get s0 = (.ok ag, s1)) (hvalid : (c.isValid ag).1 = true)
    (hnew : c.new s1 = (none, s2)) (hlist : c.accessGroups s2 = (.ok l, s3))
    (hid : ag.Status.AccessGroupID ≠ "")
    (hlookup : c.accessGroup ag.Status.AccessGroupID s3 = (.ok cur, s4)) :
    Reconcile c s0 =
      reconcileTail c (some cur) (c.toCloudflare ag)
        (listed ++ [⟨.accessGroup ag.Status.AccessGroupID, none⟩]) s4 := by
  simp [Reconcile, hget, hvalid, hnew, hlist, hid, hlookup, listed]

theorem tail_equal {σ : Type} (c : Collab σ) (cur new : AccessGroup) (trace : List Event)
    (s : σ) (heq : c.emailEqual cur new = true) :
    reconcileTail c (some cur) new trace s = ⟨.returned none, trace, s⟩ := by
  simp [reconcileTail, heq]

theorem tail_update_ok {σ : Type} (c : Collab σ) (cur new : AccessGroup) (trace : List Event)
    (s s1 : σ) (made : AccessGroup)
    (hne : c.emailEqual cur new = false)
    (hupd : c.updateAccessGroup new s = (.ok made, s1)) :
    reconcileTail c (some cur) new trace s =
      ⟨.returned none, trace ++ [⟨.updateAccessGroup new, none⟩], s1⟩ := by
  simp [reconcileTail, hne, hupd]

theorem tail_update_failed {σ : Type} (c : Collab σ) (cur new : AccessGroup) (trace : List Event)
    (s s1 : σ) (err : GoError)
    (hne : c.emailEqual cur new = false)
    (hupd : c.updateAccessGroup new s = (.error err, s1)) :
    reconcileTail c (some cur) new trace s =
      ⟨.returned (some (.wrap err "unable to update access groups")),
        trace ++ [⟨.updateAccessGroup new, some err⟩], s1⟩ := by
  simp [reconcileTail, hne, hupd, Wrap]

theorem tail_create_ok {σ : Type} (c : Collab σ) (new : AccessGroup) (trace : List Event) (s s1 : σ)
    (made : AccessGroup)
    (hcr : c.createAccessGroup new s = (.ok made, s1)) :
    reconcileTail c none new trace s =
      ⟨.fault, trace ++ [⟨.createAccessGroup new, none⟩], s1⟩ := by
  simp [reconcileTail, hcr]

theorem tail_create_failed {σ : Type} (c : Collab σ) (new : AccessGroup) (trace : List Event) (s s1 : σ)
    (err : GoError)
    (hcr : c.createAccessGroup new s = (.error err, s1)) :
    reconcileTail c none new trace s =
      ⟨.returned (some (.wrap err "unable to create access group")),
        trace ++ [⟨.createAccessGroup new, some err⟩], s1⟩ := by
  simp [reconcileTail, hcr, Wrap]

/-! ## C1: adoption of the first same-named group -/

/-- C1, evaluated on the code. In a pass where the stored status has an empty
AccessGroupID, load, validation, client construction and listing succeed, and
`g` is the first group of the listing whose Name equals `CloudflareName()`:
the pass issues no `CreateAccessGroup` call, and every status it hands to
`Status().Update` carries the ID, CreatedAt and UpdatedAt of `g`. When `g`
has both timestamps the write is issued exactly once, and once it has
succeeded `g` is the current resource of the equality check. When the
`CreatedAt` or the `UpdatedAt` pointer of `g` is `nil`, the dereference of
lines 103-104 faults: the pass writes no status and reaches no equality
check, so `g` is not adopted. -/
theorem adopt_first_named_group {σ : Type} (c : Collab σ) (s0 s1 s2 s3 : σ)
    (ag : CloudflareAccessGroup) (pre post : List AccessGroup) (g : AccessGroup)
    (hget : c.get s0 = (.ok ag, s1))
    (hvalid : (c.isValid ag).1 = true)
    (hnew : c.new s1 = (none, s2))
    (hlist : c.accessGroups s2 = (.ok (pre ++ g :: post), s3))
    (hid : ag.Status.AccessGroupID = "")
    (hname : g.Name = c.cloudflareName ag)
    (hfirst : ∀ x ∈ pre, x.Name ≠ c.cloudflareName ag) :
    creates (Reconcile c s0).calls = [] ∧
    (∀ a ∈ statusWrites (Reconcile c s0).calls,
      a.Status.AccessGroupID = g.ID ∧ g.CreatedAt = some a.Status.CreatedAt ∧
        g.UpdatedAt = some a.Status.UpdatedAt) ∧
    (∀ t u, g.CreatedAt = some t → g.UpdatedAt = some u →
      statusWrites (Reconcile c s0).calls = [adopted ag g t u]) ∧
    ((g.CreatedAt = none ∨ g.UpdatedAt = none) →
      (Reconcile c s0).outcome = Outcome.fault ∧ statusWrites (Reconcile c s0).calls = []) ∧
    (∀ t u s4, g.CreatedAt = some t → g.UpdatedAt = some u →
      c.statusUpdate (adopted ag g t u) s3 = (none, s4) →
      (c.emailEqual g (c.toCloudflare (adopted ag g t u)) = true →
        (Reconcile c s0).outcome = Outcome.success ∧ updates (Reconcile c s0).calls = []) ∧
      (c.emailEqual g (c.toCloudflare (adopted ag g t u)) = false →
        updates (Reconcile c s0).calls = [c.toCloudflare (adopted ag g t u)])) := by
  have hscan := scanByName_first (c.cloudflareName ag) pre post g hname hfirst
  cases hc : g.CreatedAt with
  | none =>
    rw [reconcile_adopt_fault c s0 s1 s2 s3 ag _ g hget hvalid hnew hlist hid hscan (Or.inl hc)]
    simp [creates, statusWrites, listed]
  | some t =>
    cases hu : g.UpdatedAt with
    | none =>
      rw [reconcile_adopt_fault c s0 s1 s2 s3 ag _ g hget hvalid hnew hlist hid hscan (Or.inr hu)]
      simp [creates, statusWrites, listed]
    | some u =>
      rcases hw : c.statusUpdate (adopted ag g t u) s3 with ⟨_ | err, s4⟩
      · rw [reconcile_adopt_path c s0 s1 s2 s3 s4 ag _ g t u hget hvalid hnew hlist hid hscan hc hu hw]
        cases hv : c.emailEqual g (c.toCloudflare (adopted ag g t u)) with
        | true =>
          rw [tail_equal c _ _ _ _ hv]
          simp [creates, statusWrites, updates, listed, hc, hu]
          refine ⟨by simp [adopted], ?_⟩
          intro t1 u1 s5 h1 h2
          subst h1 h2
          simp [hv]
        | false =>
          rcases hupd : c.updateAccessGroup (c.toCloudflare (adopted ag g t u)) s4 with
            ⟨err | made, s5⟩
          · rw [tail_update_failed c _ _ _ _ _ err hv hupd]
            simp [creates, statusWrites, updates, listed, hc, hu]
            refine ⟨by simp [adopted], ?_⟩
            intro t1 u1 s6 h1 h2
            subst h1 h2
            simp [hv]
          · rw [tail_update_ok c _ _ _ _ _ made hv hupd]
            simp [creates, statusWrites, updates, listed, hc, hu]
            refine ⟨by simp [adopted], ?_⟩
            intro t1 u1 s6 h1 h2
            subst h1 h2
            simp [hv]
      · rw [reconcile_adopt_write_failed c s0 s1 s2 s3 s4 ag _ g t u err hget hvalid hnew hlist hid
          hscan hc hu hw]
        simp [creates, statusWrites, listed, hc, hu]
        refine ⟨by simp [adopted], ?_⟩
        intro t1 u1 s6 h1 h2
        subst h1 h2
        simp [hw]

/-! ## C9: failure propagation -/

theorem split_at_failure (calls pre post : List Event) (ev : Event)
    (hcalls : calls = pre ++ ev :: post)
    (hquiet : ∀ x ∈ calls.dropLast, x.err = none) (herr : ev.err ≠ none) :
    post = [] ∧ calls.getLast? = some ev := by
  subst hcalls
  cases post with
  | nil => simp
  | cons y ys =>
    exfalso
    apply herr
    apply hquiet
    rw [List.dropLast_append_of_ne_nil _ (by simp)]
    simp [List.dropLast]

theorem reconcile_trace_shape {σ : Type} (c : Collab σ) (s0 : σ) :
    (∀ x ∈ (Reconcile c s0).calls.dropLast, x.err = none) ∧
    (∀ x e, (Reconcile c s0).calls.getLast? = some x → x.err = some e →
      ((x.call = Call.get ∧ IsNotFound e = true) →
        (Reconcile c s0).outcome = Outcome.success ∧ (Reconcile c s0).calls = [x]) ∧
      (¬ (x.call = Call.get ∧ IsNotFound e = true) →
        ∃ msg, (Reconcile c s0).outcome = Outcome.returned (some (GoError.wrap e msg)))) := by
  simp only [Reconcile, reconcileTail]
  repeat' split
  all_goals simp_all [Wrap]
  all_goals
    intro x e hx he
    subst hx
    simp_all

/-- C9. Whenever an operation recorded in the trace of a pass returned an
error, that operation is the last one of the pass. If it is the load and the
error is a not-found, the pass ends in success and the load is its only
operation; in every other case the pass returns a non-nil error, the
operation's error wrapped with a message. -/
theorem failure_ends_pass {σ : Type} (c : Collab σ) (s0 : σ) (pre post : List Event)
    (ev : Event) (e : GoError)
    (hcalls : (Reconcile c s0).calls = pre ++ ev :: post) (herr : ev.err = some e) :
    post = [] ∧
    ((ev.call = Call.get ∧ IsNotFound e = true) →
      (Reconcile c s0).outcome = Outcome.success ∧ (Reconcile c s0).calls = [ev]) ∧
    (¬ (ev.call = Call.get ∧ IsNotFound e = true) →
      ∃ msg, (Reconcile c s0).outcome = Outcome.returned (some (GoError.wrap e msg))) := by
  obtain ⟨hquiet, hlast⟩ := reconcile_trace_shape c s0
  obtain ⟨hpost, hev⟩ :=
    split_at_failure _ pre post ev hcalls hquiet (by simp [herr])
  exact ⟨hpost, hlast ev e hev herr⟩

/-! ## C5: a recorded identifier that no longer resolves -/

/-- C5. In a pass where the stored status has a non-empty AccessGroupID and
the get-by-ID call `AccessGroup(ctx, AccessGroupID)` returns an error, the
pass returns a non-nil error (the lookup error, wrapped) and has issued no
`CreateAccessGroup` call, no `UpdateAccessGroup` call and no status write. -/
theorem vanished_id_is_error {σ : Type} (c : Collab σ) (s0 s1 s2 s3 s4 : σ)
    (ag : CloudflareAccessGroup) (l : List AccessGroup) (err : GoError)
    (hget : c.get s0 = (.ok ag, s1))
    (hvalid : (c.isValid ag).1 = true)
    (hnew : c.new s1 = (none, s2))
    (hlist : c.accessGroups s2 = (.ok l, s3))
    (hid : ag.Status.AccessGroupID ≠ "")
    (hlookup : c.accessGroup ag.Status.AccessGroupID s3 = (.error err, s4)) :
    (Reconcile c s0).outcome =
      Outcome.returned (some (GoError.wrap err "unable to get access groups")) ∧
    creates (Reconcile c s0).calls = [] ∧
    updates (Reconcile c s0).calls = [] ∧
    statusWrites (Reconcile c s0).calls = [] ∧
    (Reconcile c s0).state = s4 := by
  rw [reconcile_lookup_failed c s0 s1 s2 s3 s4 ag l err hget hvalid hnew hlist hid hlookup]
  simp [creates, updates, statusWrites, listed]

/-! ## C6: invalid configuration -/

/-- C6, evaluated on the code. In a pass where the load succeeds and
`IsValid()` answers not valid, no further collaborator operation is performed
and the pass returns `errors.Wrap(err, "invalid config")` for the error `err`
that accompanies the verdict. When that error is `nil` the wrapped error is
`nil` as well, so the pass ends in success. -/
theorem invalid_config_outcome {σ : Type} (c : Collab σ) (s0 s1 : σ)
    (ag : CloudflareAccessGroup)
    (hget : c.get s0 = (.ok ag, s1))
    (hinvalid : (c.isValid ag).1 = false) :
    (Reconcile c s0).calls = [⟨Call.get, none⟩] ∧
    (Reconcile c s0).state = s1 ∧
    (Reconcile c s0).outcome = Outcome.returned (Wrap (c.isValid ag).2 "invalid config") ∧
    ((c.isValid ag).2 = none → (Reconcile c s0).outcome = Outcome.success) ∧
    (∀ e, (c.isValid ag).2 = some e →
      (Reconcile c s0).outcome = Outcome.returned (some (GoError.wrap e "invalid config"))) := by
  simp [Reconcile, hget, hinvalid, Wrap]
  constructor
  · intro h
    simp [h]
  · intro e h
    simp [h]

/-! ## C3: the creation path -/

/-- C3, evaluated on the code. In a pass where the stored status has an empty
AccessGroupID, load, validation, client construction and listing succeed and
no listed group has the Name `CloudflareName()`, `CreateAccessGroup` is called
exactly once, with `ag.ToCloudflare()`, and nothing is written to the status.
When the call fails the pass returns its error, wrapped. When the call
succeeds no update is issued and the pass faults: the created resource does
not become the current one and no equality check is reached. -/
theorem create_path_faults {σ : Type} (c : Collab σ) (s0 s1 s2 s3 : σ)
    (ag : CloudflareAccessGroup) (l : List AccessGroup)
    (hget : c.get s0 = (.ok ag, s1))
    (hvalid : (c.isValid ag).1 = true)
    (hnew : c.new s1 = (none, s2))
    (hlist : c.accessGroups s2 = (.ok l, s3))
    (hid : ag.Status.AccessGroupID = "")
    (habsent : ∀ x ∈ l, x.Name ≠ c.cloudflareName ag) :
    creates (Reconcile c s0).calls = [c.toCloudflare ag] ∧
    statusWrites (Reconcile c s0).calls = [] ∧
    updates (Reconcile c s0).calls = [] ∧
    (∀ err s4, c.createAccessGroup (c.toCloudflare ag) s3 = (.error err, s4) →
      (Reconcile c s0).outcome =
        Outcome.returned (some (GoError.wrap err "unable to create access group"))) ∧
    (∀ made s4, c.createAccessGroup (c.toCloudflare ag) s3 = (.ok made, s4) →
      (Reconcile c s0).outcome = Outcome.fault ∧ (Reconcile c s0).state = s4) := by
  have hscan := scanByName_absent (c.cloudflareName ag) l habsent
  rw [reconcile_create_path c s0 s1 s2 s3 ag l hget hvalid hnew hlist hid hscan]
  rcases hcr : c.createAccessGroup (c.toCloudflare ag) s3 with ⟨err | made, s4⟩
  · rw [tail_create_failed c _ _ _ _ err hcr]
    simp [creates, statusWrites, updates, listed]
  · rw [tail_create_ok c _ _ _ _ made hcr]
    simp [creates, statusWrites, updates, listed]

/-! ## C4: comparison and update -/

/-- C4. In a pass that reaches the comparison with a resolved current
resource `cur`, either fetched by the recorded ID or adopted by name with the
status write succeeded, where `known` is the stored object carrying the known
external ID: no create is issued; when `AcessGroupEmailEqual(cur, desired)` is
true the pass ends in success with no update; when it is false
`UpdateAccessGroup` is called exactly once, its argument is the translated
form of `known` (under the spec's translation its ID is the known external
ID), and the pass ends in success or in the wrapped error of the update.
Nothing but the verdict enters the decision. -/
theorem diff_and_update {σ : Type} (c : Collab σ) (s0 s1 s2 s3 s4 : σ)
    (ag known : CloudflareAccessGroup) (l : List AccessGroup) (cur : AccessGroup)
    (hget : c.get s0 = (.ok ag, s1))
    (hvalid : (c.isValid ag).1 = true)
    (hnew : c.new s1 = (none, s2))
    (hlist : c.accessGroups s2 = (.ok l, s3))
    (hresolved :
      (ag.Status.AccessGroupID ≠ "" ∧ known = ag ∧
        c.accessGroup ag.Status.AccessGroupID s3 = (.ok cur, s4)) ∨
      (ag.Status.AccessGroupID = "" ∧ scanByName (c.cloudflareName ag) l = some cur ∧
        ∃ t u, cur.CreatedAt = some t ∧ cur.UpdatedAt = some u ∧
          known = adopted ag cur t u ∧ c.statusUpdate known s3 = (none, s4))) :
    creates (Reconcile c s0).calls = [] ∧
    known.Spec = ag.Spec ∧
    known.Status.AccessGroupID =
      (if ag.Status.AccessGroupID = "" then cur.ID else ag.Status.AccessGroupID) ∧
    (ToCloudflare known).ID =
      (if ag.Status.AccessGroupID = "" then cur.ID else ag.Status.AccessGroupID) ∧
    (c.emailEqual cur (c.toCloudflare known) = true →
      (Reconcile c s0).outcome = Outcome.success ∧
      updates (Reconcile c s0).calls = [] ∧ (Reconcile c s0).state = s4) ∧
    (c.emailEqual cur (c.toCloudflare known) = false →
      updates (Reconcile c s0).calls = [c.toCloudflare known] ∧
      (∀ made s5, c.updateAccessGroup (c.toCloudflare known) s4 = (.ok made, s5) →
        (Reconcile c s0).outcome = Outcome.success ∧ (Reconcile c s0).state = s5) ∧
      (∀ err s5, c.updateAccessGroup (c.toCloudflare known) s4 = (.error err, s5) →
        (Reconcile c s0).outcome =
          Outcome.returned (some (GoError.wrap err "unable to update access groups")))) := by
  have htail : Reconcile c s0 =
      reconcileTail c (some cur) (c.toCloudflare known)
        (listed ++ [if ag.Status.AccessGroupID = "" then ⟨.statusUpdate known, none⟩
          else ⟨.accessGroup ag.Status.AccessGroupID, none⟩]) s4 ∧
      known.Spec = ag.Spec ∧
      known.Status.AccessGroupID =
        (if ag.Status.AccessGroupID = "" then cur.ID else ag.Status.AccessGroupID) := by
    rcases hresolved with ⟨hid, hk, hlookup⟩ | ⟨hid, hscan, t, u, hc, hu, hk, hw⟩
    · subst hk
      rw [reconcile_lookup_path c s0 s1 s2 s3 s4 known l cur hget hvalid hnew hlist hid hlookup]
      simp [hid]
    · subst hk
      rw [reconcile_adopt_path c s0 s1 s2 s3 s4 ag l cur t u hget hvalid hnew hlist hid hscan
        hc hu hw]
      simp [hid, adopted]
  obtain ⟨hrun, hspec, hknown⟩ := htail
  refine ⟨?_, hspec, hknown, hknown, ?_, ?_⟩
  · rw [hrun]
    cases hv : c.emailEqual cur (c.toCloudflare known) with
    | true =>
      rw [tail_equal c _ _ _ _ hv]
      split <;> simp [creates, listed]
    | false =>
      rcases hupd : c.updateAccessGroup (c.toCloudflare known) s4 with ⟨err | made, s5⟩
      · rw [tail_update_failed c _ _ _ _ _ err hv hupd]
        split <;> simp [creates, listed]
      · rw [tail_update_ok c _ _ _ _ _ made hv hupd]
        split <;> simp [creates, listed]
  · intro hv
    rw [hrun, tail_equal c _ _ _ _ hv]
    split <;> simp [updates, listed]
  · intro hv
    rw [hrun]
    rcases hupd : c.updateAccessGroup (c.toCloudflare known) s4 with ⟨err | made, s5⟩
    · rw [tail_update_failed c _ _ _ _ _ err hv hupd]
      split <;> simp [updates, listed]
    · rw [tail_update_ok c _ _ _ _ _ made hv hupd]
      split <;> simp [updates, listed]

/-! ## C2: lookup by the recorded identifier -/

/-- C2. In a pass where the stored status has a non-empty AccessGroupID and
load, validation, client construction and listing succeed: the whole result
of the pass (outcome, trace and final state) is the same for any two listings
and any two display-name functions, so no name is compared against the
listing; the pass performs exactly one get-by-ID call, for the recorded ID,
no create and no status write; and when that call returns `cur`, `cur` is the
current resource whose comparison with `ag.ToCloudflare()` decides between
success without update and one update. -/
theorem lookup_by_recorded_id {σ : Type} (c : Collab σ) (s0 s1 s2 : σ)
    (ag : CloudflareAccessGroup) (l1 l2 : List AccessGroup)
    (f1 f2 : CloudflareAccessGroup → String)
    (hget : c.get s0 = (.ok ag, s1))
    (hvalid : (c.isValid ag).1 = true)
    (hnew : c.new s1 = (none, s2))
    (hid : ag.Status.AccessGroupID ≠ "") :
    Reconcile ((c.withListing l1).withName f1) s0 =
      Reconcile ((c.withListing l2).withName f2) s0 ∧
    lookups (Reconcile ((c.withListing l1).withName f1) s0).calls =
      [ag.Status.AccessGroupID] ∧
    creates (Reconcile ((c.withListing l1).withName f1) s0).calls = [] ∧
    statusWrites (Reconcile ((c.withListing l1).withName f1) s0).calls = [] ∧
    (∀ cur s4,
      c.accessGroup ag.Status.AccessGroupID (c.accessGroups s2).2 = (.ok cur, s4) →
      (c.emailEqual cur (c.toCloudflare ag) = true →
        (Reconcile ((c.withListing l1).withName f1) s0).outcome = Outcome.success ∧
        updates (Reconcile ((c.withListing l1).withName f1) s0).calls = []) ∧
      (c.emailEqual cur (c.toCloudflare ag) = false →
        updates (Reconcile ((c.withListing l1).withName f1) s0).calls =
          [c.toCloudflare ag])) := by
  have hrun : ∀ (l : List AccessGroup) (f : CloudflareAccessGroup → String),
      Reconcile ((c.withListing l).withName f) s0 =
        match c.accessGroup ag.Status.AccessGroupID (c.accessGroups s2).2 with
        | (.error err, s4) =>
          ⟨.returned (some (.wrap err "unable to get access groups")),
            listed ++ [⟨.accessGroup ag.Status.AccessGroupID, some err⟩], s4⟩
        | (.ok cur, s4) =>
          reconcileTail c (some cur) (c.toCloudflare ag)
            (listed ++ [⟨.accessGroup ag.Status.AccessGroupID, none⟩]) s4 := by
    intro l f
    simp only [Reconcile, Collab.withListing, Collab.withName, hget, hvalid, hnew, hid, listed,
      Wrap, reconcileTail]
    simp
  rw [hrun l1 f1, hrun l2 f2]
  refine ⟨rfl, ?_⟩
  rcases hlookup : c.accessGroup ag.Status.AccessGroupID (c.accessGroups s2).2 with
    ⟨err | cur, s4⟩
  · simp [lookups, creates, statusWrites, listed]
  · cases hv : c.emailEqual cur (c.toCloudflare ag) with
    | true =>
      simp only [tail_equal c _ _ _ _ hv]
      simp [lookups, creates, statusWrites, updates, listed, hv]
    | false =>
      rcases hupd : c.updateAccessGroup (c.toCloudflare ag) s4 with ⟨err | made, s5⟩
      · simp only [tail_update_failed c _ _ _ _ _ err hv hupd]
        simp [lookups, creates, statusWrites, updates, listed, hv]
      · simp only [tail_update_ok c _ _ _ _ _ made hv hupd]
        simp [lookups, creates, statusWrites, updates, listed, hv]

/-! ## C8: convergence over the explicit world -/

theorem sameMembers_self (xs : List String) : sameMembers xs xs = true := by
  simp [sameMembers]

theorem scanByName_some (name : String) (l : List AccessGroup) (g : AccessGroup)
    (h : scanByName name l = some g) : g ∈ l ∧ g.Name = name := by
  induction l with
  | nil => simp [scanByName] at h
  | cons x xs ih =>
    by_cases hx : x.Name = name
    · simp [scanByName, hx] at h
      subst h
      simp [hx]
    · simp [scanByName, hx] at h
      have := ih h
      simp [this]

theorem find_after_replace (id : String) (members : List String) (l : List AccessGroup)
    (g : AccessGroup) (h : l.find? (fun x => decide (x.ID = id)) = some g) :
    (l.map (replaceMembers id members)).find? (fun x => decide (x.ID = id)) =
      some { g with Members := members } := by
  induction l with
  | nil => simp at h
  | cons x xs ih =>
    by_cases hx : x.ID = id
    · simp [List.find?, hx] at h
      subst h
      simp [List.find?, replaceMembers, hx]
    · simp [List.find?, hx] at h
      simp [List.find?, replaceMembers, hx]
      simpa [replaceMembers] using ih h

theorem scan_after_replace (name id : String) (members : List String)
    (l : List AccessGroup) (g : AccessGroup) (h : scanByName name l = some g) :
    scanByName name (l.map (replaceMembers id members)) =
      some (replaceMembers id members g) := by
  induction l with
  | nil => simp [scanByName] at h
  | cons x xs ih =>
    have hname : (replaceMembers id members x).Name = x.Name := by
      unfold replaceMembers
      split <;> rfl
    by_cases hx : x.Name = name
    · simp [scanByName, hx] at h
      subst h
      simp [scanByName, hname, hx]
    · simp [scanByName, hx] at h
      simp [scanByName, hname, hx, ih h]

theorem find_of_mem (id : String) (l : List AccessGroup) (g : AccessGroup)
    (hmem : g ∈ l) (hid : g.ID = id) :
    ∃ x, l.find? (fun x => decide (x.ID = id)) = some x := by
  cases hf : l.find? (fun x => decide (x.ID = id)) with
  | some x => exact ⟨x, rfl⟩
  | none =>
    rw [List.find?_eq_none] at hf
    have := hf g hmem
    simp [hid] at this

theorem World.update_groups (w : World) (g : AccessGroup) :
    (w.update g).groups = w.groups.map (replaceMembers g.ID g.Members) := rfl

theorem corresponding_after_update_id (w : World) (nw x : AccessGroup)
    (hid : w.stored.Status.AccessGroupID ≠ "")
    (hn : nw.ID = w.stored.Status.AccessGroupID) (hx : w.lookup nw.ID = some x) :
    (w.update nw).corresponding = some { x with Members := nw.Members } := by
  have h1 : (w.update nw).corresponding =
      (w.groups.map (replaceMembers nw.ID nw.Members)).find?
        (fun y => decide (y.ID = w.stored.Status.AccessGroupID)) := by
    unfold World.corresponding
    rw [if_neg (by exact hid)]
    rfl
  rw [h1, ← hn]
  exact find_after_replace _ _ _ _ hx

theorem corresponding_after_update_name (w : World) (nw g : AccessGroup)
    (hid : w.stored.Status.AccessGroupID = "")
    (hscan : scanByName (CloudflareName w.stored) w.groups = some g) :
    (w.update nw).corresponding = some (replaceMembers nw.ID nw.Members g) := by
  have h1 : (w.update nw).corresponding =
      scanByName (CloudflareName w.stored) (w.groups.map (replaceMembers nw.ID nw.Members)) := by
    unfold World.corresponding
    rw [if_pos (by exact hid)]
    rfl
  rw [h1]
  exact scan_after_replace _ _ _ _ _ hscan

/-- C8. Over the explicit world (update replaces the members of the group
with the given ID, create appends a group): when the external group that
corresponds to the desired resource is absent, or its member set differs from
the desired member set `M`, and one pass of `Reconcile` ends in success, then
after the pass the desired resource is unchanged and the corresponding
external group exists with members `M`. -/
theorem one_successful_pass_converges (mint : List AccessGroup → String) (w : World)
    (hdiverged : w.corresponding = none ∨
      ∃ g, w.corresponding = some g ∧
        sameMembers g.Members w.stored.Spec.Members = false)
    (hsuccess : (Reconcile (worldCollab mint) w).outcome = Outcome.success) :
    (Reconcile (worldCollab mint) w).state.stored.Spec = w.stored.Spec ∧
    ∃ g, (Reconcile (worldCollab mint) w).state.corresponding = some g ∧
      g.Members = w.stored.Spec.Members ∧
      sameMembers g.Members w.stored.Spec.Members = true := by
  have hget : (worldCollab mint).get w = (.ok w.stored, w) := rfl
  have hvalid : ((worldCollab mint).isValid w.stored).1 = true := rfl
  have hnew : (worldCollab mint).new w = (none, w) := rfl
  have hlist : (worldCollab mint).accessGroups w = (.ok w.groups, w) := rfl
  by_cases hid : w.stored.Status.AccessGroupID = ""
  · simp only [World.corresponding, hid, if_true] at hdiverged
    rcases hdiverged with hnone | ⟨g, hscan, hdiff⟩
    · exfalso
      rw [reconcile_create_path _ w w w w w.stored w.groups hget hvalid hnew hlist hid hnone,
        tail_create_ok _ _ _ _ _ _ rfl] at hsuccess
      simp at hsuccess
    · cases hc : g.CreatedAt with
      | none =>
        exfalso
        rw [reconcile_adopt_fault _ w w w w w.stored w.groups g hget hvalid hnew hlist hid hscan
          (Or.inl hc)] at hsuccess
        simp at hsuccess
      | some t =>
        cases hu : g.UpdatedAt with
        | none =>
          exfalso
          rw [reconcile_adopt_fault _ w w w w w.stored w.groups g hget hvalid hnew hlist hid
            hscan (Or.inr hu)] at hsuccess
          simp at hsuccess
        | some u =>
          obtain ⟨hmem, hname⟩ := scanByName_some _ _ _ hscan
          obtain ⟨x, hx⟩ := find_of_mem g.ID w.groups g hmem rfl
          have hv : (worldCollab mint).emailEqual g
              ((worldCollab mint).toCloudflare (adopted w.stored g t u)) = false := by
            simpa [worldCollab, AcessGroupEmailEqual, ToCloudflare, adopted] using hdiff
          have hupd : (worldCollab mint).updateAccessGroup
              ((worldCollab mint).toCloudflare (adopted w.stored g t u))
              (w.writeStatus (adopted w.stored g t u)) =
              (.ok ((worldCollab mint).toCloudflare (adopted w.stored g t u)),
                (w.writeStatus (adopted w.stored g t u)).update
                  ((worldCollab mint).toCloudflare (adopted w.stored g t u))) := by
            simp [worldCollab, World.lookup, World.writeStatus, ToCloudflare, adopted, hx]
          rw [reconcile_adopt_path _ w w w w (w.writeStatus (adopted w.stored g t u)) w.stored
            w.groups g t u hget hvalid hnew hlist hid hscan hc hu rfl,
            tail_update_ok _ _ _ _ _ _ _ hv hupd]
          refine ⟨rfl, ?_⟩
          by_cases hgid : g.ID = ""
          · refine ⟨replaceMembers g.ID w.stored.Spec.Members g, ?_, ?_, ?_⟩
            · exact corresponding_after_update_name (w.writeStatus (adopted w.stored g t u))
                (ToCloudflare (adopted w.stored g t u)) g hgid hscan
            · simp [replaceMembers]
            · simp [replaceMembers, sameMembers_self]
          · refine ⟨{ x with Members := w.stored.Spec.Members }, ?_, rfl, ?_⟩
            · exact corresponding_after_update_id (w.writeStatus (adopted w.stored g t u))
                (ToCloudflare (adopted w.stored g t u)) x hgid rfl hx
            · simp [sameMembers_self]
  · simp only [World.corresponding, hid, if_false] at hdiverged
    rcases hdiverged with hnone | ⟨g, hfound, hdiff⟩
    · exfalso
      have hlookup : (worldCollab mint).accessGroup w.stored.Status.AccessGroupID w =
          (.error (.other "access group not found"), w) := by
        simp [worldCollab, hnone]
      rw [reconcile_lookup_failed _ w w w w w w.stored w.groups _ hget hvalid hnew hlist hid
        hlookup] at hsuccess
      simp at hsuccess
    · have hlookup : (worldCollab mint).accessGroup w.stored.Status.AccessGroupID w =
          (.ok g, w) := by
        simp [worldCollab, hfound]
      have hv : (worldCollab mint).emailEqual g ((worldCollab mint).toCloudflare w.stored) =
          false := by
        simpa [worldCollab, AcessGroupEmailEqual, ToCloudflare] using hdiff
      have hupd : (worldCollab mint).updateAccessGroup
          ((worldCollab mint).toCloudflare w.stored) w =
          (.ok ((worldCollab mint).toCloudflare w.stored),
            w.update ((worldCollab mint).toCloudflare w.stored)) := by
        simp [worldCollab, ToCloudflare, hfound]
      rw [reconcile_lookup_path _ w w w w w w.stored w.groups g hget hvalid hnew hlist hid
        hlookup, tail_update_ok _ _ _ _ _ _ _ hv hupd]
      refine ⟨rfl, { g with Members := w.stored.Spec.Members }, ?_, rfl, ?_⟩
      · exact corresponding_after_update_id w (ToCloudflare w.stored) g hid rfl hfound
      · simp [sameMembers_self]

/-! ## Passes that start from an existing corresponding group -/

theorem replaceMembers_ID (id : String) (members : List String) (x : AccessGroup) :
    (replaceMembers id members x).ID = x.ID := by
  unfold replaceMembers
  split <;> rfl

theorem replaceMembers_stamps (id : String) (members : List String) (x : AccessGroup) :
    (replaceMembers id members x).CreatedAt = x.CreatedAt ∧
      (replaceMembers id members x).UpdatedAt = x.UpdatedAt := by
  unfold replaceMembers
  split <;> exact ⟨rfl, rfl⟩

theorem update_keeps_ids (w : World) (g : AccessGroup) :
    (w.update g).groups.map (fun x => x.ID) = w.groups.map (fun x => x.ID) := by
  rw [World.update_groups, List.map_map]
  apply List.map_congr_left
  intro x _
  exact replaceMembers_ID _ _ x

theorem find_unique (l : List AccessGroup) (g x : AccessGroup)
    (hunique : (l.map (fun y => y.ID)).Nodup) (hmem : g ∈ l)
    (hx : l.find? (fun y => decide (y.ID = g.ID)) = some x) : x = g := by
  have hxmem : x ∈ l := List.mem_of_find?_eq_some hx
  have hxid : x.ID = g.ID := by
    have := List.find?_some hx
    simpa using this
  exact List.inj_on_of_nodup_map hunique hxmem hmem hxid

/-- One pass over the explicit world that starts with the corresponding
external group `g` present (with both timestamps when it still has to be
adopted by name) and with unique identifiers in the account: the pass ends in
success without a create, without an update when the members already agree,
and leaves the desired resource and the identifiers unchanged and the
corresponding group present with the desired member set. -/
theorem pass_over_present_group (mint : List AccessGroup → String) (w : World)
    (g : AccessGroup)
    (hunique : (w.groups.map (fun x => x.ID)).Nodup)
    (hcorr : w.corresponding = some g)
    (hstamps : w.stored.Status.AccessGroupID = "" →
      g.CreatedAt ≠ none ∧ g.UpdatedAt ≠ none) :
    (Reconcile (worldCollab mint) w).outcome = Outcome.success ∧
    creates (Reconcile (worldCollab mint) w).calls = [] ∧
    (sameMembers g.Members w.stored.Spec.Members = true →
      updates (Reconcile (worldCollab mint) w).calls = []) ∧
    (Reconcile (worldCollab mint) w).state.stored.Spec = w.stored.Spec ∧
    (Reconcile (worldCollab mint) w).state.groups.map (fun x => x.ID) =
      w.groups.map (fun x => x.ID) ∧
    ∃ g1, (Reconcile (worldCollab mint) w).state.corresponding = some g1 ∧
      sameMembers g1.Members w.stored.Spec.Members = true ∧
      ((Reconcile (worldCollab mint) w).state.stored.Status.AccessGroupID = "" →
        g1.CreatedAt ≠ none ∧ g1.UpdatedAt ≠ none) := by
  have hget : (worldCollab mint).get w = (.ok w.stored, w) := rfl
  have hvalid : ((worldCollab mint).isValid w.stored).1 = true := rfl
  have hnew : (worldCollab mint).new w = (none, w) := rfl
  have hlist : (worldCollab mint).accessGroups w = (.ok w.groups, w) := rfl
  by_cases hid : w.stored.Status.AccessGroupID = ""
  · have hscan : scanByName (CloudflareName w.stored) w.groups = some g := by
      simpa [World.corresponding, hid] using hcorr
    obtain ⟨hc, hu⟩ := hstamps hid
    obtain ⟨t, ht⟩ := Option.ne_none_iff_exists'.mp hc
    obtain ⟨u, hu1⟩ := Option.ne_none_iff_exists'.mp hu
    obtain ⟨hmem, hname⟩ := scanByName_some _ _ _ hscan
    obtain ⟨x, hx⟩ := find_of_mem g.ID w.groups g hmem rfl
    have hxg : x = g := find_unique w.groups g x hunique hmem hx
    subst hxg
    have hrun := reconcile_adopt_path (worldCollab mint) w w w w
      (w.writeStatus (adopted w.stored x t u)) w.stored w.groups x t u hget hvalid hnew hlist
      hid hscan ht hu1 rfl
    cases hv : sameMembers x.Members w.stored.Spec.Members with
    | true =>
      have hv1 : (worldCollab mint).emailEqual x
          ((worldCollab mint).toCloudflare (adopted w.stored x t u)) = true := hv
      rw [hrun, tail_equal _ _ _ _ _ hv1]
      refine ⟨rfl, by simp [creates, listed], fun _ => by simp [updates, listed], rfl, rfl,
        x, ?_, hv, fun _ => ⟨hc, hu⟩⟩
      by_cases hgid : x.ID = ""
      · simpa [World.corresponding, World.writeStatus, adopted, hgid] using hscan
      · simpa [World.corresponding, World.writeStatus, adopted, hgid, World.lookup] using hx
    | false =>
      have hv1 : (worldCollab mint).emailEqual x
          ((worldCollab mint).toCloudflare (adopted w.stored x t u)) = false := hv
      have hupd : (worldCollab mint).updateAccessGroup
          ((worldCollab mint).toCloudflare (adopted w.stored x t u))
          (w.writeStatus (adopted w.stored x t u)) =
          (.ok ((worldCollab mint).toCloudflare (adopted w.stored x t u)),
            (w.writeStatus (adopted w.stored x t u)).update
              ((worldCollab mint).toCloudflare (adopted w.stored x t u))) := by
        simp [worldCollab, World.lookup, World.writeStatus, ToCloudflare, adopted, hx]
      rw [hrun, tail_update_ok _ _ _ _ _ _ _ hv1 hupd]
      refine ⟨rfl, by simp [creates, listed], fun h => by simp at h, rfl,
        update_keeps_ids _ _, ?_⟩
      by_cases hgid : x.ID = ""
      · refine ⟨replaceMembers x.ID w.stored.Spec.Members x, ?_, ?_, fun _ => ?_⟩
        · exact corresponding_after_update_name (w.writeStatus (adopted w.stored x t u))
            (ToCloudflare (adopted w.stored x t u)) x hgid hscan
        · simp [replaceMembers, sameMembers_self]
        · rw [(replaceMembers_stamps _ _ x).1, (replaceMembers_stamps _ _ x).2]
          exact ⟨hc, hu⟩
      · refine ⟨{ x with Members := w.stored.Spec.Members }, ?_, sameMembers_self _,
          fun h => absurd h hgid⟩
        exact corresponding_after_update_id (w.writeStatus (adopted w.stored x t u))
          (ToCloudflare (adopted w.stored x t u)) x hgid rfl hx
  · have hfound : w.lookup w.stored.Status.AccessGroupID = some g := by
      simpa [World.corresponding, hid] using hcorr
    have hlookup : (worldCollab mint).accessGroup w.stored.Status.AccessGroupID w =
        (.ok g, w) := by
      simp [worldCollab, hfound]
    have hrun := reconcile_lookup_path (worldCollab mint) w w w w w w.stored w.groups g hget
      hvalid hnew hlist hid hlookup
    cases hv : sameMembers g.Members w.stored.Spec.Members with
    | true =>
      have hv1 : (worldCollab mint).emailEqual g ((worldCollab mint).toCloudflare w.stored) =
          true := hv
      rw [hrun, tail_equal _ _ _ _ _ hv1]
      exact ⟨rfl, by simp [creates, listed], fun _ => by simp [updates, listed], rfl, rfl,
        g, hcorr, hv, fun h => absurd h hid⟩
    | false =>
      have hv1 : (worldCollab mint).emailEqual g ((worldCollab mint).toCloudflare w.stored) =
          false := hv
      have hupd : (worldCollab mint).updateAccessGroup
          ((worldCollab mint).toCloudflare w.stored) w =
          (.ok ((worldCollab mint).toCloudflare w.stored),
            w.update ((worldCollab mint).toCloudflare w.stored)) := by
        simp [worldCollab, ToCloudflare, hfound]
      rw [hrun, tail_update_ok _ _ _ _ _ _ _ hv1 hupd]
      exact ⟨rfl, by simp [creates, listed], fun h => by simp at h, rfl,
        update_keeps_ids _ _, { g with Members := w.stored.Spec.Members },
        corresponding_after_update_id w (ToCloudflare w.stored) g hid rfl hfound,
        sameMembers_self _, fun h => absurd h hid⟩

/-- Two passes in succession over the explicit world, starting with the
corresponding external group present (adopted or still to be adopted, members
equal or different): both end in success and the second issues no create and
no update. -/
theorem second_pass_is_quiet (mint : List AccessGroup → String) (w : World)
    (g : AccessGroup)
    (hunique : (w.groups.map (fun x => x.ID)).Nodup)
    (hcorr : w.corresponding = some g)
    (hstamps : w.stored.Status.AccessGroupID = "" →
      g.CreatedAt ≠ none ∧ g.UpdatedAt ≠ none) :
    (Reconcile (worldCollab mint) w).outcome = Outcome.success ∧
    (Reconcile (worldCollab mint) (Reconcile (worldCollab mint) w).state).outcome =
      Outcome.success ∧
    creates (Reconcile (worldCollab mint) (Reconcile (worldCollab mint) w).state).calls = [] ∧
    updates (Reconcile (worldCollab mint) (Reconcile (worldCollab mint) w).state).calls =
      [] := by
  obtain ⟨h1, _, _, hspec, hids, g1, hcorr1, hsame1, hstamps1⟩ :=
    pass_over_present_group mint w g hunique hcorr hstamps
  have hunique1 : ((Reconcile (worldCollab mint) w).state.groups.map (fun x => x.ID)).Nodup := by
    rw [hids]
    exact hunique
  obtain ⟨h2, hcr2, hup2, _⟩ :=
    pass_over_present_group mint (Reconcile (worldCollab mint) w).state g1 hunique1 hcorr1
      hstamps1
  exact ⟨h1, h2, hcr2, hup2 (by rw [hspec]; exact hsame1)⟩

/-- A pass that returns a non-nil error has completed no create and no
update: every operation of its trace that returned no error is a load, a
client construction, a listing, a lookup or a status write. -/
theorem returned_error_completes_no_mutation {σ : Type} (c : Collab σ) (s0 : σ)
    (e : GoError) (h : (Reconcile c s0).outcome = Outcome.returned (some e)) :
    ∀ ev ∈ (Reconcile c s0).calls, ev.err = none →
      (∀ g, ev.call ≠ Call.createAccessGroup g) ∧
        (∀ g, ev.call ≠ Call.updateAccessGroup g) := by
  revert h
  simp only [Reconcile, reconcileTail]
  repeat' split
  all_goals simp_all [Wrap]

/-! ## C7 and C10: the creation path on the explicit world -/

/-- C7, evaluated on the code. With the desired resource `eng`, no recorded
identity and an empty external account, every collaborator call succeeding:
the first pass calls `CreateAccessGroup` once and then faults instead of
ending in success; the second pass, run on the world the first one left,
adopts the created group and ends in success with no create and no update. -/
theorem first_pass_on_empty_account_faults :
    (Reconcile (worldCollab mintG1) emptyAccount).outcome = Outcome.fault ∧
    creates (Reconcile (worldCollab mintG1) emptyAccount).calls = [ToCloudflare engDesired] ∧
    (Reconcile (worldCollab mintG1)
      (Reconcile (worldCollab mintG1) emptyAccount).state).outcome = Outcome.success ∧
    creates (Reconcile (worldCollab mintG1)
      (Reconcile (worldCollab mintG1) emptyAccount).state).calls = [] ∧
    updates (Reconcile (worldCollab mintG1)
      (Reconcile (worldCollab mintG1) emptyAccount).state).calls = [] := by
  decide

/-- C10, evaluated on the code. With the desired resource `eng`, no recorded
identity and an external account without a group of that name: the pass does
not end in success (it faults), its last operation is a `CreateAccessGroup`
call that returned no error, the external account afterwards holds the created
group `g1`, and the persisted status still records no identity. -/
theorem faulted_pass_leaves_unrecorded_group :
    (Reconcile (worldCollab mintG1) opsAccount).outcome = Outcome.fault ∧
    (Reconcile (worldCollab mintG1) opsAccount).calls =
      listed ++ [⟨Call.createAccessGroup (ToCloudflare engDesired), none⟩] ∧
    (Reconcile (worldCollab mintG1) opsAccount).state.groups =
      [opsGroup, ⟨"g1", some 7, some 7, "eng", ["a@x.com", "b@x.com"]⟩] ∧
    (Reconcile (worldCollab mintG1) opsAccount).state.stored.Status.AccessGroupID = "" := by
  decide

/-! ## The statements at concrete worlds -/

/-- C1 at `unstampedAccount`: the first listed group named `eng` has no
`CreatedAt`; nothing is created, but the pass faults and writes no status. -/
theorem adopt_first_named_group_witness :
    creates (Reconcile (worldCollab mintG1) unstampedAccount).calls = [] ∧
    (Reconcile (worldCollab mintG1) unstampedAccount).outcome = Outcome.fault ∧
    statusWrites (Reconcile (worldCollab mintG1) unstampedAccount).calls = [] :=
  have h := adopt_first_named_group (worldCollab mintG1) unstampedAccount unstampedAccount
    unstampedAccount unstampedAccount engDesired [opsGroup] [staleGroup] unstampedGroup
    rfl rfl rfl rfl rfl rfl (by decide)
  ⟨h.1, (h.2.2.2.1 (Or.inl rfl)).1, (h.2.2.2.1 (Or.inl rfl)).2⟩

/-- The pass at `namedAccount`, where the first group named `eng` has both
timestamps: it is adopted, nothing is created, and one update brings its
members in line. -/
theorem adoption_at_named_account :
    (Reconcile (worldCollab mintG1) namedAccount).outcome = Outcome.success ∧
    creates (Reconcile (worldCollab mintG1) namedAccount).calls = [] ∧
    statusWrites (Reconcile (worldCollab mintG1) namedAccount).calls =
      [adopted engDesired staleGroup 2 3] ∧
    updates (Reconcile (worldCollab mintG1) namedAccount).calls =
      [ToCloudflare (adopted engDesired staleGroup 2 3)] := by
  decide

/-- C2 at `recordedAccount`: a listing that puts a same-named group with
another ID first, and another display name, leave the pass as it is. -/
theorem lookup_by_recorded_id_witness :
    Reconcile (((worldCollab mintG1).withListing [group42]).withName CloudflareName)
        recordedAccount =
      Reconcile (((worldCollab mintG1).withListing
        [⟨"77", some 1, some 1, "eng", ["a@x.com"]⟩, group42]).withName (fun _ => "other"))
        recordedAccount ∧
    lookups (Reconcile (((worldCollab mintG1).withListing [group42]).withName CloudflareName)
      recordedAccount).calls = ["42"] :=
  have h := lookup_by_recorded_id (worldCollab mintG1) recordedAccount recordedAccount
    recordedAccount engRecorded [group42] [⟨"77", some 1, some 1, "eng", ["a@x.com"]⟩, group42]
    CloudflareName (fun _ => "other") rfl rfl rfl (by decide)
  ⟨h.1, h.2.1⟩

/-- C3 at `opsAccount`: one create with the translated form, then the fault. -/
theorem create_path_faults_witness :
    creates (Reconcile (worldCollab mintG1) opsAccount).calls = [ToCloudflare engDesired] ∧
    (Reconcile (worldCollab mintG1) opsAccount).outcome = Outcome.fault :=
  have h := create_path_faults (worldCollab mintG1) opsAccount opsAccount opsAccount
    opsAccount engDesired [opsGroup] rfl rfl rfl rfl rfl (by decide)
  ⟨h.1, (h.2.2.2.2 _ _ rfl).1⟩

/-- C4 at `recordedAccount`: the fetched group has one member too many, so the
pass issues one update with the translated form and ends in success. -/
theorem diff_and_update_witness :
    creates (Reconcile (worldCollab mintG1) recordedAccount).calls = [] ∧
    updates (Reconcile (worldCollab mintG1) recordedAccount).calls =
      [ToCloudflare engRecorded] ∧
    (Reconcile (worldCollab mintG1) recordedAccount).outcome = Outcome.success :=
  have h := diff_and_update (worldCollab mintG1) recordedAccount recordedAccount
    recordedAccount recordedAccount recordedAccount engRecorded engRecorded [group42] group42
    rfl rfl rfl rfl (Or.inl ⟨by decide, rfl, rfl⟩)
  ⟨h.1, (h.2.2.2.2.2 (by decide)).1, ((h.2.2.2.2.2 (by decide)).2.1 _ _ rfl).1⟩

/-- C5 at `vanishedAccount`: the lookup of `42` fails, the pass returns the
wrapped error and creates nothing. -/
theorem vanished_id_is_error_witness :
    (Reconcile (worldCollab mintG1) vanishedAccount).outcome =
      Outcome.returned (some (GoError.wrap (GoError.other "access group not found")
        "unable to get access groups")) ∧
    creates (Reconcile (worldCollab mintG1) vanishedAccount).calls = [] :=
  have h := vanished_id_is_error (worldCollab mintG1) vanishedAccount vanishedAccount
    vanishedAccount vanishedAccount vanishedAccount engRecorded [opsGroup]
    (GoError.other "access group not found") rfl rfl rfl rfl (by decide) rfl
  ⟨h.1, h.2.1⟩

/-- C6 at a validator that answers not valid without an error: the load is
the only operation and the pass ends in success. -/
theorem invalid_config_outcome_witness :
    (Reconcile silentInvalidCollab emptyAccount).calls = [⟨Call.get, none⟩] ∧
    (Reconcile silentInvalidCollab emptyAccount).outcome = Outcome.success :=
  have h := invalid_config_outcome silentInvalidCollab emptyAccount emptyAccount engDesired
    rfl rfl
  ⟨h.1, h.2.2.2.1 rfl⟩

/-- C8 at `recordedAccount`: the pass ends in success and group `42` then has
exactly the desired member. -/
theorem one_successful_pass_converges_witness :
    (Reconcile (worldCollab mintG1) recordedAccount).outcome = Outcome.success ∧
    ∃ g, (Reconcile (worldCollab mintG1) recordedAccount).state.corresponding = some g ∧
      g.Members = ["a@x.com"] :=
  have h := one_successful_pass_converges mintG1 recordedAccount
    (Or.inr ⟨group42, by decide, by decide⟩) (by decide)
  ⟨by decide, h.2.imp (fun _ hg => ⟨hg.1, hg.2.1⟩)⟩

/-- C9 at `vanishedAccount`: the failed lookup is the last operation and the
pass returns its error, wrapped. -/
theorem failure_ends_pass_witness :
    (Reconcile (worldCollab mintG1) vanishedAccount).calls =
      listed ++ [⟨Call.accessGroup "42", some (GoError.other "access group not found")⟩] ∧
    ∃ msg, (Reconcile (worldCollab mintG1) vanishedAccount).outcome =
      Outcome.returned (some (GoError.wrap (GoError.other "access group not found") msg)) :=
  have hcalls : (Reconcile (worldCollab mintG1) vanishedAccount).calls =
      listed ++ [⟨Call.accessGroup "42", some (GoError.other "access group not found")⟩] := by
    decide
  have h := failure_ends_pass (worldCollab mintG1) vanishedAccount listed []
    ⟨Call.accessGroup "42", some (GoError.other "access group not found")⟩
    (GoError.other "access group not found") hcalls rfl
  ⟨hcalls, h.2.2 (by decide)⟩

end CfZeroTrust
